import Mathlib

/-!
Verification development for the Poros Protocol registry/orchestrator.

The Python sources under `backend/app/` are shallowly embedded:

* `identity.py` (DID derivation, AgentCard signing/verification over
  canonical JSON with base64/base64url codecs) — strings are `List Char`,
  byte strings are `List Nat` (each byte `< 256`), Python floats are `ℚ`,
  dictionaries are an explicit JSON syntax tree.  The Ed25519 primitives of
  the `cryptography` library are not part of the repository; they are
  abstracted as function parameters (`Ed25519Scheme`), and UTF-8 encoding of
  the canonical JSON string (an injective map) is absorbed into those
  abstract signing primitives.
* `ranking.py` (the four scoring strategies and `rank_agents`) — `math.log10`
  is likewise a parameter of the embedding, constrained only by properties
  the proofs need (`log10 1 = 0`, nonnegativity on `[1, ∞)`); the semantic
  strategy is embedded in its keyword-matching form (the
  `sentence-transformers` fallback path, the only one exercised here).
* `orchestrator.py` (selection, dispatch normalization, metric update, and
  the post-aggregation persistence sequence) — the HTTP outcome of each
  agent call is an explicit `HttpOutcome` value, and database commits are
  explicit `Except` values.
-/

/-- Convert a Lean string literal to the `List Char` representation used for
Python strings throughout this file. -/
def chars (s : String) : List Char := s.data

/-- The `{` character (written via its code point). -/
def lbrace : Char := Char.ofNat 123

/-- The `}` character (written via its code point). -/
def rbrace : Char := Char.ofNat 125

/-- Python `str.startswith`: `p` is an initial segment of `s`. -/
def strStarts : List Char → List Char → Bool
  | [], _ => true
  | _ :: _, [] => false
  | p :: ps, c :: cs => p == c && strStarts ps cs

/-- Python `str.split(sep)` for a one-character separator: groups of
characters between occurrences of `sep`; `"".split(sep) == [""]`. -/
def pySplit (sep : Char) (s : List Char) : List (List Char) :=
  s.foldr
    (fun c acc =>
      match acc with
      | [] => [[c]]
      | g :: gs => if c = sep then [] :: g :: gs else (c :: g) :: gs)
    [[]]

/-- Python `str.rstrip('=')`: drop trailing `'='` characters. -/
def stripEq (s : List Char) : List Char :=
  (s.reverse.dropWhile (fun c => c == '=')).reverse

/-- The re-padding step of `verify_agent_card` (identity.py lines 96-98):
`padding = 4 - (len(s) % 4); if padding != 4: s += '=' * padding`. -/
def padB64 (s : List Char) : List Char :=
  let padding := 4 - s.length % 4
  if padding ≠ 4 then s ++ List.replicate padding '=' else s

/-- Python whitespace characters recognised by `str.split()` (ASCII range). -/
def isPySpace (c : Char) : Bool :=
  c == ' ' || c == '\t' || c == '\n' || c == '\x0b' || c == '\x0c' || c == '\r'

/-- Python `str.split()` (no separator): maximal runs of non-whitespace
characters, with no empty words. -/
def pySplitWs : List Char → List (List Char)
  | [] => []
  | c :: rest =>
    if isPySpace c then pySplitWs rest
    else
      match pySplitWs rest with
      | [] => [[c]]
      | w :: ws =>
        match rest with
        | [] => [[c]]
        | r :: _ => if isPySpace r then [c] :: w :: ws else (c :: w) :: ws

/-- Python `str.lower()` (ASCII model). -/
def pyLower (s : List Char) : List Char := s.map Char.toLower

mutual

/-- JSON values, as produced by Python dict/list/str/int/bool/None trees.
Mirrors the payloads `json.dumps` serialises in `identity.py`. -/
inductive Json where
  | null : Json
  | bool (b : Bool) : Json
  | num (n : Int) : Json
  | str (s : List Char) : Json
  | arr (elems : JsonArr) : Json
  | obj (fields : JsonObj) : Json
deriving DecidableEq

/-- A JSON array (list of JSON values). -/
inductive JsonArr where
  | nil : JsonArr
  | cons (hd : Json) (tl : JsonArr) : JsonArr
deriving DecidableEq

/-- A JSON object: an association list of string keys and JSON values (a
Python dict in insertion order). -/
inductive JsonObj where
  | nil : JsonObj
  | cons (key : List Char) (val : Json) (tl : JsonObj) : JsonObj
deriving DecidableEq

end

/-- Hexadecimal digit in lowercase, as used by `json.dumps` unicode escapes. -/
def hexDigit (n : Nat) : Char :=
  if n < 10 then Char.ofNat (48 + n) else Char.ofNat (87 + n)

/-- Four-digit lowercase hex rendering of a code unit below `0x10000`. -/
def hex4 (n : Nat) : List Char :=
  [hexDigit (n / 4096 % 16), hexDigit (n / 256 % 16), hexDigit (n / 16 % 16), hexDigit (n % 16)]

/-- `json.dumps` escape of a single character with `ensure_ascii=True`
(the default used in `identity.py`): printable ASCII except `"` and `\` is
kept, short escapes for the usual controls, `\uXXXX` (with surrogate pairs
above `0xFFFF`) for everything else. -/
def escapeChar (c : Char) : List Char :=
  if c = '"' then ['\\', '"']
  else if c = '\\' then ['\\', '\\']
  else if c = '\n' then ['\\', 'n']
  else if c = '\t' then ['\\', 't']
  else if c = '\r' then ['\\', 'r']
  else if c.toNat = 8 then ['\\', 'b']
  else if c.toNat = 12 then ['\\', 'f']
  else if c.toNat < 32 ∨ 126 < c.toNat then
    if c.toNat < 65536 then '\\' :: 'u' :: hex4 c.toNat
    else
      ('\\' :: 'u' :: hex4 (55296 + (c.toNat - 65536) / 1024)) ++
        ('\\' :: 'u' :: hex4 (56320 + (c.toNat - 65536) % 1024))
  else [c]

/-- JSON string literal: `"` + escaped characters + `"`. -/
def jsonStringLit (s : List Char) : List Char :=
  '"' :: ((s.map escapeChar).foldr (· ++ ·) ['"'])

/-- Lexicographic (code-point) strict order on strings: Python `str <`,
the order `sort_keys=True` sorts dictionary keys by. -/
def lexLt : List Char → List Char → Bool
  | [], [] => false
  | [], _ :: _ => true
  | _ :: _, [] => false
  | a :: as_, b :: bs_ =>
    if a.toNat < b.toNat then true
    else if b.toNat < a.toNat then false
    else lexLt as_ bs_

/-- Insert a rendered key/value pair into a key-sorted list (stable). -/
def insertField (p : List Char × List Char) :
    List (List Char × List Char) → List (List Char × List Char)
  | [] => [p]
  | q :: qs => if lexLt q.1 p.1 then q :: insertField p qs else p :: q :: qs

/-- Sort rendered key/value pairs by key, as `sort_keys=True` does. -/
def sortFields : List (List Char × List Char) → List (List Char × List Char)
  | [] => []
  | p :: ps => insertField p (sortFields ps)

/-- Join rendered object fields as `"key":value` separated by `,`
(`separators=(',', ':')`). -/
def joinFields : List (List Char × List Char) → List Char
  | [] => []
  | [p] => jsonStringLit p.1 ++ ':' :: p.2
  | p :: rest => jsonStringLit p.1 ++ ':' :: p.2 ++ ',' :: joinFields rest

mutual

/-- Canonical serialisation of a JSON value:
`json.dumps(x, sort_keys=True, separators=(',', ':'))` from
`sign_agent_card` / `verify_agent_card` (identity.py lines 60, 106).
Keys are sorted at every object, there is no insignificant whitespace. -/
def canonicalJson : Json → List Char
  | Json.null => chars "null"
  | Json.bool b => if b then chars "true" else chars "false"
  | Json.num n => (toString n).data
  | Json.str s => jsonStringLit s
  | Json.arr es => '[' :: (canonicalArr es ++ [']'])
  | Json.obj fs => lbrace :: (joinFields (sortFields (renderFields fs)) ++ [rbrace])

/-- Serialise array elements, comma-separated. -/
def canonicalArr : JsonArr → List Char
  | JsonArr.nil => []
  | JsonArr.cons e JsonArr.nil => canonicalJson e
  | JsonArr.cons e rest => canonicalJson e ++ ',' :: canonicalArr rest

/-- Render each object value to its canonical string (keys untouched). -/
def renderFields : JsonObj → List (List Char × List Char)
  | JsonObj.nil => []
  | JsonObj.cons k v rest => (k, canonicalJson v) :: renderFields rest

end

/-- Look a key up in a JSON object (Python `dict` lookup; insertion order,
first match). -/
def jsonLookup : JsonObj → List Char → Option Json
  | JsonObj.nil, _ => none
  | JsonObj.cons k v rest, key => if k = key then some v else jsonLookup rest key

/-- The dict comprehension of identity_api.py lines 74 and 100:
`{k: v for k, v in record.items() if k != 'signature'}`. -/
def stripSignatureObj : JsonObj → JsonObj
  | JsonObj.nil => JsonObj.nil
  | JsonObj.cons k v rest =>
    if k = chars "signature" then stripSignatureObj rest
    else JsonObj.cons k v (stripSignatureObj rest)

/-- Base64 digit table: sextet value to character; `c62`/`c63` select the
standard (`+`, `/`) or URL-safe (`-`, `_`) alphabet. -/
def b64char (c62 c63 : Char) (v : Nat) : Char :=
  if v < 26 then Char.ofNat (65 + v)
  else if v < 52 then Char.ofNat (97 + (v - 26))
  else if v < 62 then Char.ofNat (48 + (v - 52))
  else if v = 62 then c62
  else if v = 63 then c63
  else '?'

/-- Base64 encoding of a byte string (`base64.b64encode` /
`base64.urlsafe_b64encode`, depending on the alphabet): three bytes map to
four digits, with `=` padding for a 1- or 2-byte tail. -/
def b64encode (c62 c63 : Char) : List Nat → List Char
  | [] => []
  | [b1] => [b64char c62 c63 (b1 / 4), b64char c62 c63 (b1 % 4 * 16), '=', '=']
  | [b1, b2] =>
    [b64char c62 c63 (b1 / 4), b64char c62 c63 (b1 % 4 * 16 + b2 / 16),
      b64char c62 c63 (b2 % 16 * 4), '=']
  | b1 :: b2 :: b3 :: rest =>
    b64char c62 c63 (b1 / 4) :: b64char c62 c63 (b1 % 4 * 16 + b2 / 16) ::
      b64char c62 c63 (b2 % 16 * 4 + b3 / 64) :: b64char c62 c63 (b3 % 64) ::
        b64encode c62 c63 rest

/-- Value of a base64 digit for the standard alphabet
(`base64.b64decode`). -/
def stdVal (c : Char) : Option Nat :=
  if 65 ≤ c.toNat ∧ c.toNat ≤ 90 then some (c.toNat - 65)
  else if 97 ≤ c.toNat ∧ c.toNat ≤ 122 then some (c.toNat - 97 + 26)
  else if 48 ≤ c.toNat ∧ c.toNat ≤ 57 then some (c.toNat - 48 + 52)
  else if c = '+' then some 62
  else if c = '/' then some 63
  else none

/-- Value of a base64 digit for `base64.urlsafe_b64decode`, which first
translates `-`/`_` to `+`/`/` and then decodes with the standard alphabet
(so all four of `-`, `_`, `+`, `/` are accepted). -/
def urlVal (c : Char) : Option Nat :=
  if c = '-' then some 62 else if c = '_' then some 63 else stdVal c

/-- Base64 decoding of a four-digit-aligned string: inverse of `b64encode`.
Returns `none` where Python's decoder raises `binascii.Error` (length not a
multiple of four, digit outside the alphabet, misplaced padding). -/
def b64decode (val : Char → Option Nat) : List Char → Option (List Nat)
  | [] => some []
  | c1 :: c2 :: c3 :: c4 :: rest => do
    let v1 ← val c1
    let v2 ← val c2
    if c3 = '=' then
      if c4 = '=' ∧ rest = [] then some [v1 * 4 + v2 / 16] else none
    else do
      let v3 ← val c3
      if c4 = '=' then
        if rest = [] then some [v1 * 4 + v2 / 16, v2 % 16 * 16 + v3 / 4] else none
      else do
        let v4 ← val c4
        let tail ← b64decode val rest
        some ((v1 * 4 + v2 / 16) :: (v2 % 16 * 16 + v3 / 4) :: (v3 % 4 * 64 + v4) :: tail)
  | _ => none

/-- Abstraction of the Ed25519 primitives of the `cryptography` library used
by identity.py (not part of this repository): a key type standing for a
loaded `Ed25519PrivateKey`, its raw public bytes, deterministic signing of a
canonical-JSON message, and signature verification over raw public-key
bytes.  UTF-8 encoding of the message (injective) is absorbed into `sign`
and `verify`, whose message argument is the canonical JSON string. -/
structure Ed25519Scheme where
  Key : Type
  pubBytes : Key → List Nat
  sign : Key → List Char → List Nat
  verify : List Nat → List Nat → List Char → Bool

/-- The DID returned by `generate_keypair` (identity.py lines 34-36):
`"did:poros:ed25519:" + urlsafe_b64encode(public_bytes).rstrip('=')`. -/
def didFrom (public_bytes : List Nat) : List Char :=
  chars "did:poros:ed25519:" ++ stripEq (b64encode '-' '_' public_bytes)

/-- `sign_agent_card` (identity.py lines 48-73): canonicalise the record
exactly as passed (no field is stripped here), sign the bytes with the
loaded private key (`signFn`), and base64-encode the signature. -/
def sign_agent_card (signFn : List Char → List Nat) (agent_card_dict : Json) : List Char :=
  b64encode '+' '/' (signFn (canonicalJson agent_card_dict))

/-- `verify_agent_card` (identity.py lines 76-120): check the DID prefix,
take the last `:`-separated segment, re-pad and base64url-decode it, load
the 32-byte public key, canonicalise the record exactly as passed, decode
the base64 signature, and verify; every failure path (the explicit prefix
check, and each step whose Python counterpart raises inside the
`try`/`except`) returns `false`.  `cv` is the abstract
`Ed25519PublicKey.verify` check. -/
def verify_agent_card (cv : List Nat → List Nat → List Char → Bool)
    (agent_card_dict : Json) (signature_b64 : List Char) (did : List Char) : Bool :=
  if strStarts (chars "did:poros:ed25519:") did = false then false
  else
    let public_key_b64 := (pySplit ':' did).getLastD []
    match b64decode urlVal (padB64 public_key_b64) with
    | none => false
    | some public_bytes =>
      if public_bytes.length = 32 then
        match b64decode stdVal signature_b64 with
        | none => false
        | some signature => cv public_bytes signature (canonicalJson agent_card_dict)
      else false

/-- The `/identity/sign-card` handler's signing payload (identity_api.py
lines 73-77): strip any `signature` field, then call `sign_agent_card`. -/
def apiSignCard (signFn : List Char → List Nat) (agent_card : JsonObj) : List Char :=
  sign_agent_card signFn (Json.obj (stripSignatureObj agent_card))

/-- The `/identity/verify-card` handler (identity_api.py lines 99-102):
strip any `signature` field, then call `verify_agent_card`. -/
def apiVerifyCard (cv : List Nat → List Nat → List Char → Bool)
    (agent_card : JsonObj) (signature_b64 : List Char) (did : List Char) : Bool :=
  verify_agent_card cv (Json.obj (stripSignatureObj agent_card)) signature_b64 did

/-- The fields of a `RegisteredAgent` row (models.py lines 33-69) consumed
by ranking.py and orchestrator.py.  Floats are rationals; `agent_card` is
the stored AgentCard JSON dict. -/
structure RegisteredAgent where
  agent_id : List Char
  name : List Char
  description : List Char
  url : List Char
  skills_tags : List (List Char)
  agent_card : JsonObj
  total_calls : Nat
  success_rate : ℚ
  avg_latency_ms : ℚ
deriving DecidableEq

/-- `PerformanceRanking.score` (ranking.py lines 39-57): success rate worth
60 points; a latency score added only when `avg_latency_ms > 0`; a
popularity score added only when `total_calls > 0`.  `log10` abstracts
`math.log10`. -/
def PerformanceRanking_score (log10 : ℚ → ℚ) (agent : RegisteredAgent)
    (_query : List Char) (_skill_tags : Option (List (List Char))) : ℚ :=
  let s1 : ℚ := 0 + agent.success_rate * 60
  let s2 : ℚ :=
    if 0 < agent.avg_latency_ms then
      s1 + max 0 (30 - agent.avg_latency_ms / 5000 * 30)
    else s1
  if 0 < agent.total_calls then
    s2 + min 10 (log10 ((agent.total_calls : ℚ) + 1) * 2)
  else s2

/-- `SemanticRanking._score_with_keywords` (ranking.py lines 100-122), the
fallback used when `sentence-transformers` is not installed: word-overlap
ratio scaled to 70 points, a 30-point bonus when any query word occurs as a
substring of the lowercased name, capped at 100. -/
def SemanticRanking_score (agent : RegisteredAgent) (query : List Char) : ℚ :=
  let query_lower := pyLower query
  let desc_lower := pyLower agent.description
  let name_lower := pyLower agent.name
  let query_words := (pySplitWs query_lower).toFinset
  let desc_words := (pySplitWs desc_lower).toFinset
  let matching_words := query_words ∩ desc_words
  let s1 : ℚ :=
    if 0 < query_words.card then
      0 + (matching_words.card : ℚ) / (query_words.card : ℚ) * 70
    else 0
  let s2 : ℚ :=
    if (pySplitWs query_lower).any (fun w => decide (w <:+: name_lower)) then s1 + 30 else s1
  min s2 100

/-- `agent.agent_card.get("metadata", {})` (ranking.py line 137): the
stored metadata value, or an empty dict when the key is absent. -/
def cardMetadata (card : JsonObj) : Json :=
  (jsonLookup card (chars "metadata")).getD (Json.obj JsonObj.nil)

/-- The tier value read by `RevenueRanking.score` (ranking.py line 137),
`agent.agent_card.get("metadata", {}).get("tier", "free")`, together with
its use as a `tier_scores.get` key.  `none` marks exactly the executions
where Python raises: `AttributeError` when a present `metadata` value is
not a dict (reachable, since registration stores cards unvalidated), and
`TypeError` when the tier value is an unhashable list or dict used as a
dictionary key.  Otherwise the tier JSON value, defaulting to `"free"`. -/
def agentTier (card : JsonObj) : Option Json :=
  match cardMetadata card with
  | Json.obj ms =>
    match (jsonLookup ms (chars "tier")).getD (Json.str (chars "free")) with
    | Json.arr _ => none
    | Json.obj _ => none
    | t => some t
  | _ => none

/-- `tier_scores.get(tier, 0)` (ranking.py lines 140-147): the bonus for a
hashable tier value — the string keys `enterprise`/`premium`/`pro` score
100/70/40, everything else (including `"free"`, unknown strings, null,
booleans, numbers) the default 0. -/
def tierScore (tier : Json) : ℚ :=
  if tier = Json.str (chars "enterprise") then 100
  else if tier = Json.str (chars "premium") then 70
  else if tier = Json.str (chars "pro") then 40
  else 0

/-- `RevenueRanking.score` (ranking.py lines 133-152): tier bonus plus
`success_rate * 10`.  `none` where the tier lookup raises — the call then
propagates the exception instead of returning a float. -/
def RevenueRanking_score (agent : RegisteredAgent)
    (_query : List Char) (_skill_tags : Option (List (List Char))) : Option ℚ :=
  match agentTier agent.agent_card with
  | none => none
  | some tier => some (0 + tierScore tier + agent.success_rate * 10)

/-- `HybridRanking._skill_match_score` (ranking.py lines 203-222): neutral
50 when no tags are requested (`None` or empty are falsy), else Jaccard
similarity of the tag sets scaled to 100 (0 when the union is empty). -/
def HybridRanking_skill_match (agent : RegisteredAgent)
    (skill_tags : Option (List (List Char))) : ℚ :=
  match skill_tags with
  | none => 50
  | some tags =>
    if tags = [] then 50
    else
      let agent_tags := agent.skills_tags.toFinset
      let query_tags := tags.toFinset
      if query_tags.card = 0 then 50
      else
        let inter := agent_tags ∩ query_tags
        let union := agent_tags ∪ query_tags
        if union.card = 0 then 0
        else (inter.card : ℚ) / (union.card : ℚ) * 100

/-- `HybridRanking._freshness_score` (ranking.py lines 224-228): the
neutral placeholder 50. -/
def HybridRanking_freshness (_agent : RegisteredAgent) : ℚ := 50

/-- `HybridRanking.score` (ranking.py lines 184-201): the weighted sum
`skill*0.40 + performance*0.25 + semantic*0.20 + revenue*0.10 +
freshness*0.05`; `none` when the revenue component raises (the exception
propagates out of `score`). -/
def HybridRanking_score (log10 : ℚ → ℚ) (agent : RegisteredAgent)
    (query : List Char) (skill_tags : Option (List (List Char))) : Option ℚ :=
  let skill_score := HybridRanking_skill_match agent skill_tags
  let performance_score := PerformanceRanking_score log10 agent query skill_tags
  let semantic_score := SemanticRanking_score agent query
  match RevenueRanking_score agent query skill_tags with
  | none => none
  | some revenue_score =>
    let freshness_score := HybridRanking_freshness agent
    some (skill_score * 0.40 + performance_score * 0.25 + semantic_score * 0.20 +
      revenue_score * 0.10 + freshness_score * 0.05)

/-- The strategy table of `rank_agents` (ranking.py lines 254-261):
`strategies.get(strategy, HybridRanking())` — any name other than
`performance`, `semantic`, `revenue` selects the hybrid scorer.  Every
scorer is a fallible function; the performance and semantic strategies
never raise. -/
def strategyScorer (log10 : ℚ → ℚ) (strategy : List Char) :
    RegisteredAgent → List Char → Option (List (List Char)) → Option ℚ :=
  if strategy = chars "performance" then
    fun a q t => some (PerformanceRanking_score log10 a q t)
  else if strategy = chars "semantic" then
    fun a q _ => some (SemanticRanking_score a q)
  else if strategy = chars "revenue" then RevenueRanking_score
  else HybridRanking_score log10

/-- The scoring loop of `rank_agents` (ranking.py lines 264-267): score
each agent in turn; a raising scorer aborts the loop and the exception
propagates out of `rank_agents`. -/
def scoreAgents
    (ranker : RegisteredAgent → List Char → Option (List (List Char)) → Option ℚ)
    (query : List Char) (skill_tags : Option (List (List Char))) :
    List RegisteredAgent → Option (List (RegisteredAgent × ℚ))
  | [] => some []
  | a :: rest =>
    match ranker a query skill_tags with
    | none => none
    | some s =>
      match scoreAgents ranker query skill_tags rest with
      | none => none
      | some tail => some ((a, s) :: tail)

/-- Stable insertion into a descending-by-score list: the inserted element
(the originally earlier one) stays behind exactly the elements whose score
is strictly greater, so equal scores keep their original order — Python's
stable `list.sort(key=..., reverse=True)`. -/
def insertScoredDesc (p : RegisteredAgent × ℚ) :
    List (RegisteredAgent × ℚ) → List (RegisteredAgent × ℚ)
  | [] => [p]
  | q :: qs => if p.2 < q.2 then q :: insertScoredDesc p qs else p :: q :: qs

/-- Stable descending sort by score (`scored_agents.sort(key=lambda x: x[1],
reverse=True)`, ranking.py line 270). -/
def sortScoredDesc : List (RegisteredAgent × ℚ) → List (RegisteredAgent × ℚ)
  | [] => []
  | p :: ps => insertScoredDesc p (sortScoredDesc ps)

/-- `rank_agents` (ranking.py lines 235-273): score every agent with the
selected strategy, stable-sort descending by score, return the agents;
`none` when a scorer raises on some agent. -/
def rank_agents (log10 : ℚ → ℚ) (agents : List RegisteredAgent)
    (query : List Char) (skill_tags : Option (List (List Char)))
    (strategy : List Char) : Option (List RegisteredAgent) :=
  let ranker := strategyScorer log10 strategy
  match scoreAgents ranker query skill_tags agents with
  | none => none
  | some scored_agents => some ((sortScoredDesc scored_agents).map (fun p => p.1))

/-- Outcome of the HTTP POST inside `call_agent_http` (orchestrator.py
lines 46-61): either a 2xx JSON response together with the measured latency
in milliseconds, or any raised exception (timeout, connection error,
`raise_for_status`, JSON decoding) with its message. -/
inductive HttpOutcome where
  | ok (latency_ms : ℚ) (data : Json) : HttpOutcome
  | fail (error : List Char) : HttpOutcome
deriving DecidableEq

/-- The normalized per-agent result dict built by `call_agent_http`
(orchestrator.py lines 63-80). -/
structure CallResult where
  agent_id : List Char
  agent_name : List Char
  status : List Char
  latency_ms : ℚ
  result : Option Json
  error : Option (List Char)
deriving DecidableEq

/-- `call_agent_http` (orchestrator.py lines 36-80): normalize a call
outcome; the surrounding `try`/`except Exception` turns every failure into
a `status: "error"` dict with `latency_ms: 0.0`, so the function never
raises. -/
def call_agent_http (agent : RegisteredAgent) : HttpOutcome → CallResult
  | HttpOutcome.ok latency data =>
    ⟨agent.agent_id, agent.name, chars "success", latency, some data, none⟩
  | HttpOutcome.fail e =>
    ⟨agent.agent_id, agent.name, chars "error", 0, none, some e⟩

/-- The dispatch step (orchestrator.py lines 145-162): one
`call_agent_http` task per selected agent, results collected in task order
by `asyncio.gather`.  Since `call_agent_http` catches every exception, the
`isinstance(result, Exception)` branch is dead and each formatted result is
the normalized dict of its agent. -/
def dispatchAgents (agents : List RegisteredAgent) (outcomes : List HttpOutcome) :
    List CallResult :=
  (agents.zip outcomes).map (fun p => call_agent_http p.1 p.2)

/-- The per-agent metric update (orchestrator.py lines 164-176):
`total_calls += 1`; the success-rate EMA `old*0.9 + sample*0.1` with sample
1.0 exactly when the result's status is "success"; the latency EMA applied
only when the result's `latency_ms` is greater than 0. -/
def updateAgentMetrics (agent : RegisteredAgent) (result : CallResult) : RegisteredAgent :=
  let success : ℚ := if result.status = chars "success" then 1.0 else 0.0
  { agent with
    total_calls := agent.total_calls + 1
    success_rate := agent.success_rate * 0.9 + success * 0.1
    avg_latency_ms :=
      if 0 < result.latency_ms then
        agent.avg_latency_ms * 0.9 + result.latency_ms * 0.1
      else agent.avg_latency_ms }

/-- The selection step (orchestrator.py lines 131-143): take the top
`max_agents` of the ranked list; when the caller supplied a non-empty
`prefer_agent_ids` (an empty list is falsy in Python), prepend the matching
candidates and truncate back to `max_agents`, dropping ranked agents that
are already in the preferred list. -/
def selectAgents (ranked_agents matching_agents : List RegisteredAgent)
    (prefer_agent_ids : Option (List (List Char))) (max_agents : Nat) :
    List RegisteredAgent :=
  let selected := ranked_agents.take max_agents
  match prefer_agent_ids with
  | none => selected
  | some ids =>
    if ids = [] then selected
    else
      let preferred := matching_agents.filter (fun a => decide (a.agent_id ∈ ids))
      (preferred ++ selected.filter (fun a => decide (a ∉ preferred))).take max_agents

/-- The post-aggregation persistence sequence (orchestrator.py lines
177-209): `session.commit()` for the metric updates, then
`session.add(log); session.commit()`, then `return OrchestrateResponse(...)`
— none of it wrapped in `try`/`except`, so a raised persistence error
propagates out of the endpoint instead of returning the response.  Each
commit is an `Except` value; `resp` is the already-aggregated response. -/
def finishRequest {α : Type} (metricsCommit logCommit : Except (List Char) Unit)
    (resp : α) : Except (List Char) α :=
  match metricsCommit with
  | Except.error e => Except.error e
  | Except.ok _ =>
    match logCommit with
    | Except.error e => Except.error e
    | Except.ok _ => Except.ok resp

/-- A plain registered agent used as a concrete instance in witnesses. -/
def agentA : RegisteredAgent :=
  ⟨chars "agent-a", chars "Alpha", chars "weather forecasts", chars "http://a",
    [chars "weather"], JsonObj.nil, 10, 1, 100⟩

/-- A second concrete agent with a distinct id. -/
def agentB : RegisteredAgent :=
  ⟨chars "agent-b", chars "Beta", chars "hotel booking", chars "http://b",
    [chars "hotel"], JsonObj.nil, 0, 0.5, 4000⟩

/-- A third concrete agent with a distinct id. -/
def agentC : RegisteredAgent :=
  ⟨chars "agent-c", chars "Gamma", chars "flight search", chars "http://c",
    [chars "flights"], JsonObj.nil, 3, 0.8, 250⟩

/-- An enterprise-tier agent with a perfect success rate. -/
def agentEnterprise : RegisteredAgent :=
  ⟨chars "agent-e", chars "Enterprise", chars "", chars "http://e", [],
    JsonObj.cons (chars "metadata")
      (Json.obj (JsonObj.cons (chars "tier") (Json.str (chars "enterprise")) JsonObj.nil))
      JsonObj.nil,
    0, 1, 0⟩

/-- A never-called agent: zero success rate, zero latency, zero calls. -/
def agentIdle : RegisteredAgent :=
  ⟨chars "agent-i", chars "Idle", chars "", chars "http://i", [], JsonObj.nil, 0, 0, 0⟩

/-- An agent whose rolling average latency is exactly 1000 ms. -/
def agentSlow : RegisteredAgent :=
  ⟨chars "agent-s", chars "Slow", chars "", chars "http://s", [], JsonObj.nil, 5, 1, 1000⟩

/-- Metric update as claim C6 words it: both rolling metrics are updated by
the EMA rule regardless of outcome, the latency sample being the result's
measured latency.  Stated from the claim, for comparison with
`updateAgentMetrics` (which is translated from orchestrator.py). -/
def updateAgentMetricsClaimed (agent : RegisteredAgent) (result : CallResult) :
    RegisteredAgent :=
  { agent with
    total_calls := agent.total_calls + 1
    success_rate := agent.success_rate * 0.9 +
      (if result.status = chars "success" then 1.0 else 0.0) * 0.1
    avg_latency_ms := agent.avg_latency_ms * 0.9 + result.latency_ms * 0.1 }

/-- C6 (counterexample): a failed call reports `latency_ms = 0.0`, and the
code's guard `if result.get("latency_ms", 0) > 0` then skips the latency
EMA entirely, leaving `avg_latency_ms` at 1000 where the claim's
unconditional rule `old*0.9 + sample*0.1` would give 900. -/
theorem metrics_latency_ema_counterexample :
    (updateAgentMetrics agentSlow
        (call_agent_http agentSlow (HttpOutcome.fail (chars "boom")))).avg_latency_ms
      = 1000 ∧
    (updateAgentMetricsClaimed agentSlow
        (call_agent_http agentSlow (HttpOutcome.fail (chars "boom")))).avg_latency_ms
      = 900 := by
  constructor <;> norm_num [updateAgentMetrics, updateAgentMetricsClaimed,
    call_agent_http, agentSlow, chars]

/-- C6 (amended): after dispatch the orchestrator increments `total_calls`
and updates the success-rate EMA (`old*0.9 + sample*0.1`, sample 1.0 on
success and 0.0 on failure) for every selected agent regardless of outcome;
the latency EMA is applied only when the result carries a positive
`latency_ms` — failed calls report 0.0 and leave `avg_latency_ms`
unchanged. -/
theorem updateAgentMetrics_spec (agent : RegisteredAgent) (o : HttpOutcome) :
    (updateAgentMetrics agent (call_agent_http agent o)).total_calls
        = agent.total_calls + 1 ∧
    (updateAgentMetrics agent (call_agent_http agent o)).success_rate
        = agent.success_rate * 0.9 +
          (match o with
            | HttpOutcome.ok _ _ => (1 : ℚ)
            | HttpOutcome.fail _ => 0) * 0.1 ∧
    (∀ e, o = HttpOutcome.fail e →
      (updateAgentMetrics agent (call_agent_http agent o)).avg_latency_ms
        = agent.avg_latency_ms) ∧
    (∀ l d, o = HttpOutcome.ok l d → 0 < l →
      (updateAgentMetrics agent (call_agent_http agent o)).avg_latency_ms
        = agent.avg_latency_ms * 0.9 + l * 0.1) := by
  cases o with
  | ok l d =>
    refine ⟨rfl, ?_, ?_, ?_⟩
    · simp [updateAgentMetrics, call_agent_http]; norm_num
    · intro e he; exact absurd he (by simp)
    · intro l' d' he hl
      cases he
      simp [updateAgentMetrics, call_agent_http, hl]
  | fail e =>
    refine ⟨rfl, ?_, ?_, ?_⟩
    · have hne : ¬(chars "error" = chars "success") := by decide
      simp [updateAgentMetrics, call_agent_http, hne]
      norm_num
    · intro e' he
      simp [updateAgentMetrics, call_agent_http]
    · intro l' d' he; exact absurd he (by simp)

/-- C6 (witness): the amended update rule evaluated at a concrete agent,
for a successful 200 ms call and for a failed call. -/
theorem updateAgentMetrics_spec_witness :
    (updateAgentMetrics agentSlow
        (call_agent_http agentSlow (HttpOutcome.ok 200 Json.null))).avg_latency_ms
      = agentSlow.avg_latency_ms * 0.9 + 200 * 0.1 ∧
    (updateAgentMetrics agentSlow
        (call_agent_http agentSlow (HttpOutcome.fail (chars "x")))).avg_latency_ms
      = agentSlow.avg_latency_ms := by
  constructor
  · exact (updateAgentMetrics_spec agentSlow (HttpOutcome.ok 200 Json.null)).2.2.2
      200 Json.null rfl (by norm_num)
  · exact (updateAgentMetrics_spec agentSlow (HttpOutcome.fail (chars "x"))).2.2.1
      (chars "x") rfl

/-- C9 (counterexample): the post-aggregation sequence of
`orchestrate` wraps neither `session.commit()` in any `try`/`except`, so a
failing metrics commit makes the request fail instead of still returning
the aggregated response. -/
theorem finishRequest_commit_failure_counterexample :
    finishRequest (Except.error (chars "commit failed")) (Except.ok ()) (0 : Nat)
      ≠ Except.ok 0 := by
  simp [finishRequest]

/-- C9 (amended): metric and log persistence is on the critical path — the
client receives the aggregated response exactly when both the metrics
commit and the log commit succeed; any persistence error propagates out of
the endpoint unchanged. -/
theorem finishRequest_ok_iff {α : Type} (m l : Except (List Char) Unit) (r : α) :
    finishRequest m l r = Except.ok r ↔ m = Except.ok () ∧ l = Except.ok () := by
  cases m with
  | error e => simp [finishRequest]
  | ok u =>
    cases u
    cases l with
    | error e => simp [finishRequest]
    | ok u' => cases u'; simp [finishRequest]

/-- An AgentCard dict that still carries a `signature` field. -/
def cardSigned : JsonObj :=
  JsonObj.cons (chars "name") (Json.str (chars "a"))
    (JsonObj.cons (chars "signature") (Json.str (chars "x")) JsonObj.nil)

/-- C3 (counterexample): `sign_agent_card` and `verify_agent_card`
canonicalise the record exactly as passed and strip nothing — on a record
that still carries a `signature` key the signed payload differs from the
stripped payload, so signing differs (here under a signing function that
deterministically depends on the message, as Ed25519 does) and
verification differs (here under a verifier that accepts exactly the
stripped payload, as a verifier keyed to a signature over the stripped
record does). -/
theorem sign_includes_signature_field_counterexample :
    sign_agent_card (fun m => m.map (fun c => c.toNat % 256)) (Json.obj cardSigned) ≠
      sign_agent_card (fun m => m.map (fun c => c.toNat % 256))
        (Json.obj (stripSignatureObj cardSigned)) ∧
    verify_agent_card
        (fun _ _ msg => msg == canonicalJson (Json.obj (stripSignatureObj cardSigned)))
        (Json.obj cardSigned) (b64encode '+' '/' [1]) (didFrom (List.replicate 32 0))
      = false ∧
    verify_agent_card
        (fun _ _ msg => msg == canonicalJson (Json.obj (stripSignatureObj cardSigned)))
        (Json.obj (stripSignatureObj cardSigned)) (b64encode '+' '/' [1])
        (didFrom (List.replicate 32 0))
      = true := by
  refine ⟨by decide, by decide, by decide⟩

/-- Helper: stripping the `signature` key is idempotent. -/
theorem stripSignatureObj_idem : (o : JsonObj) →
    stripSignatureObj (stripSignatureObj o) = stripSignatureObj o
  | JsonObj.nil => rfl
  | JsonObj.cons k v rest => by
    by_cases hk : k = chars "signature" <;>
      simp [stripSignatureObj, hk, stripSignatureObj_idem rest]

/-- C3 (amended): the `signature` field is stripped not by
`sign_agent_card` / `verify_agent_card` themselves (they canonicalise the
record exactly as passed) but by their callers in identity_api.py, which
remove the key before calling; those API-level operations are therefore
insensitive to a pre-existing `signature` field. -/
theorem api_strip_signature_invariant (signFn : List Char → List Nat)
    (cv : List Nat → List Nat → List Char → Bool)
    (record : JsonObj) (signature_b64 did : List Char) :
    apiSignCard signFn record = apiSignCard signFn (stripSignatureObj record) ∧
    apiVerifyCard cv record signature_b64 did
      = apiVerifyCard cv (stripSignatureObj record) signature_b64 did := by
  constructor <;>
    simp [apiSignCard, apiVerifyCard, stripSignatureObj_idem]

/-- C10: `rank_agents` called with any strategy name other than
`performance`, `semantic`, `revenue`, `hybrid` returns exactly the ordering
of the `hybrid` strategy — `strategies.get(strategy, HybridRanking())`
silently falls back instead of raising. -/
theorem rank_agents_unknown_strategy (log10 : ℚ → ℚ) (agents : List RegisteredAgent)
    (query : List Char) (skill_tags : Option (List (List Char))) (strategy : List Char)
    (h1 : strategy ≠ chars "performance") (h2 : strategy ≠ chars "semantic")
    (h3 : strategy ≠ chars "revenue") (_h4 : strategy ≠ chars "hybrid") :
    rank_agents log10 agents query skill_tags strategy =
      rank_agents log10 agents query skill_tags (chars "hybrid") := by
  have hs : strategyScorer log10 strategy = strategyScorer log10 (chars "hybrid") := by
    unfold strategyScorer
    rw [if_neg h1, if_neg h2, if_neg h3,
      if_neg (by decide : ¬(chars "hybrid" = chars "performance")),
      if_neg (by decide : ¬(chars "hybrid" = chars "semantic")),
      if_neg (by decide : ¬(chars "hybrid" = chars "revenue"))]
  unfold rank_agents
  rw [hs]

/-- C10 (witness): the unknown strategy name "popularity" ranks two
concrete agents exactly as "hybrid" does. -/
theorem rank_agents_unknown_strategy_witness :
    rank_agents (fun _ => 0) [agentA, agentB] (chars "weather") none (chars "popularity") =
      rank_agents (fun _ => 0) [agentA, agentB] (chars "weather") none (chars "hybrid") :=
  rank_agents_unknown_strategy (fun _ => 0) [agentA, agentB] (chars "weather") none
    (chars "popularity") (by decide) (by decide) (by decide) (by decide)

/-- C1: `verify_agent_card` is fail-closed — it is a total boolean function
(totality is by construction in this embedding, matching the
`try`/`except` boundary of identity.py lines 88-120), and it returns
`false` whenever the DID lacks the `did:poros:ed25519:` prefix, the
re-padded base64url key segment fails to decode, the decoded key is not 32
bytes (so `Ed25519PublicKey.from_public_bytes` raises), the base64
signature fails to decode, or the cryptographic check `cv` itself rejects;
this holds for every record, signature string, DID string, and
cryptographic checker. -/
theorem verify_agent_card_fail_closed
    (cv : List Nat → List Nat → List Char → Bool)
    (card : Json) (signature_b64 did : List Char) :
    (strStarts (chars "did:poros:ed25519:") did = false →
      verify_agent_card cv card signature_b64 did = false) ∧
    (b64decode urlVal (padB64 ((pySplit ':' did).getLastD [])) = none →
      verify_agent_card cv card signature_b64 did = false) ∧
    (∀ pub, b64decode urlVal (padB64 ((pySplit ':' did).getLastD [])) = some pub →
      pub.length ≠ 32 →
      verify_agent_card cv card signature_b64 did = false) ∧
    (b64decode stdVal signature_b64 = none →
      verify_agent_card cv card signature_b64 did = false) ∧
    (∀ pub sg, b64decode urlVal (padB64 ((pySplit ':' did).getLastD [])) = some pub →
      pub.length = 32 → b64decode stdVal signature_b64 = some sg →
      cv pub sg (canonicalJson card) = false →
      verify_agent_card cv card signature_b64 did = false) := by
  unfold verify_agent_card
  refine ⟨fun h => by simp [h], ?_, ?_, ?_, ?_⟩
  · intro h
    simp only [List.getLastD_eq_getLast?] at h
    by_cases hpre : strStarts (chars "did:poros:ed25519:") did = false
    · simp [hpre]
    · simp [hpre, h]
  · intro pub hpub hlen
    simp only [List.getLastD_eq_getLast?] at hpub
    by_cases hpre : strStarts (chars "did:poros:ed25519:") did = false
    · simp [hpre]
    · simp [hpre, hpub, hlen]
  · intro h
    by_cases hpre : strStarts (chars "did:poros:ed25519:") did = false
    · simp [hpre]
    · cases hdec : b64decode urlVal (padB64 ((pySplit ':' did).getLastD [])) with
      | none =>
        simp only [List.getLastD_eq_getLast?] at hdec
        simp [hpre, hdec]
      | some pub =>
        simp only [List.getLastD_eq_getLast?] at hdec
        by_cases hlen : pub.length = 32
        · simp [hpre, hdec, hlen, h]
        · simp [hpre, hdec, hlen]
  · intro pub sg hpub hlen hsig hcv
    simp only [List.getLastD_eq_getLast?] at hpub
    by_cases hpre : strStarts (chars "did:poros:ed25519:") did = false
    · simp [hpre]
    · simp [hpre, hpub, hlen, hsig, hcv]

/-- C1 (witness): the five failure modes at concrete inputs — a DID with
the wrong prefix, a DID whose key segment is not base64, a DID whose key
decodes to fewer than 32 bytes, an undecodable signature, and a rejecting
cryptographic check — all evaluate to `false`. -/
theorem verify_agent_card_fail_closed_witness :
    verify_agent_card (fun _ _ _ => false) Json.null [] (chars "nope") = false ∧
    verify_agent_card (fun _ _ _ => false) Json.null []
      (chars "did:poros:ed25519:!!") = false ∧
    verify_agent_card (fun _ _ _ => false) Json.null []
      (chars "did:poros:ed25519:AA") = false ∧
    verify_agent_card (fun _ _ _ => false) Json.null (chars "!")
      (didFrom (List.replicate 32 0)) = false ∧
    verify_agent_card (fun _ _ _ => false) Json.null (b64encode '+' '/' [1, 2, 3])
      (didFrom (List.replicate 32 0)) = false := by
  refine ⟨?_, ?_, ?_, ?_, ?_⟩
  · exact (verify_agent_card_fail_closed (fun _ _ _ => false) Json.null []
      (chars "nope")).1 (by decide)
  · exact (verify_agent_card_fail_closed (fun _ _ _ => false) Json.null []
      (chars "did:poros:ed25519:!!")).2.1 (by decide)
  · exact (verify_agent_card_fail_closed (fun _ _ _ => false) Json.null []
      (chars "did:poros:ed25519:AA")).2.2.1 [0] (by decide) (by decide)
  · exact (verify_agent_card_fail_closed (fun _ _ _ => false) Json.null (chars "!")
      (didFrom (List.replicate 32 0))).2.2.2.1 (by decide)
  · exact (verify_agent_card_fail_closed (fun _ _ _ => false) Json.null
      (b64encode '+' '/' [1, 2, 3]) (didFrom (List.replicate 32 0))).2.2.2.2
      (List.replicate 32 0) [1, 2, 3] (by decide) (by decide) (by decide) rfl

/-- Helper: the performance score lies in `[0, 100]` for admissible metric
values. -/
theorem performance_score_bounds (log10 : ℚ → ℚ)
    (hlog : ∀ x : ℚ, 1 ≤ x → 0 ≤ log10 x)
    (agent : RegisteredAgent) (q : List Char) (t : Option (List (List Char)))
    (hsr0 : 0 ≤ agent.success_rate) (hsr1 : agent.success_rate ≤ 1)
    (hlat : 0 ≤ agent.avg_latency_ms) :
    0 ≤ PerformanceRanking_score log10 agent q t ∧
      PerformanceRanking_score log10 agent q t ≤ 100 := by
  have hcast : (1 : ℚ) ≤ (agent.total_calls : ℚ) + 1 := by
    have : (0 : ℚ) ≤ (agent.total_calls : ℚ) := Nat.cast_nonneg _
    linarith
  have hpop0 : 0 ≤ log10 ((agent.total_calls : ℚ) + 1) * 2 := by
    have := hlog _ hcast
    linarith
  have hsr60 : agent.success_rate * 60 ≤ 60 := by nlinarith
  have hsr60n : 0 ≤ agent.success_rate * 60 := mul_nonneg hsr0 (by norm_num)
  have hmax0 : (0 : ℚ) ≤ max 0 (30 - agent.avg_latency_ms / 5000 * 30) :=
    le_max_left _ _
  have hmax30 : max 0 (30 - agent.avg_latency_ms / 5000 * 30) ≤ 30 := by
    apply max_le (by norm_num)
    have : 0 ≤ agent.avg_latency_ms / 5000 * 30 :=
      mul_nonneg (div_nonneg hlat (by norm_num)) (by norm_num)
    linarith
  have hmin0 : (0 : ℚ) ≤ min 10 (log10 ((agent.total_calls : ℚ) + 1) * 2) :=
    le_min (by norm_num) hpop0
  have hmin10 : min 10 (log10 ((agent.total_calls : ℚ) + 1) * 2) ≤ 10 :=
    min_le_left _ _
  simp only [PerformanceRanking_score]
  split_ifs <;> constructor <;> linarith

/-- Helper: the keyword-path semantic score lies in `[0, 100]`. -/
theorem semantic_score_bounds (agent : RegisteredAgent) (q : List Char) :
    0 ≤ SemanticRanking_score agent q ∧ SemanticRanking_score agent q ≤ 100 := by
  unfold SemanticRanking_score
  refine ⟨le_min ?_ (by norm_num), min_le_right _ _⟩
  split_ifs <;> positivity

/-- Helper: the hybrid skill-match component lies in `[0, 100]`. -/
theorem skill_match_bounds (agent : RegisteredAgent)
    (tags : Option (List (List Char))) :
    0 ≤ HybridRanking_skill_match agent tags ∧
      HybridRanking_skill_match agent tags ≤ 100 := by
  cases tags with
  | none => norm_num [HybridRanking_skill_match]
  | some l =>
    simp only [HybridRanking_skill_match]
    split_ifs with h1 h2 h3
    · norm_num
    · norm_num
    · norm_num
    · have hsub : (agent.skills_tags.toFinset ∩ l.toFinset).card ≤
          (agent.skills_tags.toFinset ∪ l.toFinset).card :=
        Finset.card_le_card Finset.inter_subset_union
    
      have hu : 0 < ((agent.skills_tags.toFinset ∪ l.toFinset).card : ℚ) := by
        have : 0 < (agent.skills_tags.toFinset ∪ l.toFinset).card := Nat.pos_of_ne_zero h3
        exact_mod_cast this
      have hr1 : ((agent.skills_tags.toFinset ∩ l.toFinset).card : ℚ) /
          ((agent.skills_tags.toFinset ∪ l.toFinset).card : ℚ) ≤ 1 :=
        (div_le_one hu).mpr (by exact_mod_cast hsub)
      constructor
      · positivity
      · nlinarith

/-- Helper: whenever the revenue strategy returns a score (its tier lookup
does not raise), that score lies in `[0, 110]` — the enterprise tier bonus
of 100 plus up to 10 success-rate points. -/
theorem revenue_score_bounds (agent : RegisteredAgent) (q : List Char)
    (t : Option (List (List Char)))
    (hsr0 : 0 ≤ agent.success_rate) (hsr1 : agent.success_rate ≤ 1) :
    ∀ r, RevenueRanking_score agent q t = some r → 0 ≤ r ∧ r ≤ 110 := by
  intro r hr
  have h10 : agent.success_rate * 10 ≤ 10 := by nlinarith
  have h10n : 0 ≤ agent.success_rate * 10 := mul_nonneg hsr0 (by norm_num)
  simp only [RevenueRanking_score] at hr
  cases htier : agentTier agent.agent_card with
  | none =>
    rw [htier] at hr
    simp at hr
  | some tv =>
    rw [htier] at hr
    simp only [Option.some.injEq] at hr
    subst hr
    simp only [tierScore]
    split_ifs <;> constructor <;> linarith

/-- C4 (counterexample): an enterprise-tier agent with success rate 1
(within the claim's hypotheses: success rate in `[0,1]`, latency `≥ 0`, a
well-formed metadata dict) scores 110 under the revenue strategy — outside
`[0, 100]`. -/
theorem revenue_score_exceeds_100 :
    RevenueRanking_score agentEnterprise (chars "") none = some 110 ∧
    ¬(110 : ℚ) ≤ 100 ∧
    0 ≤ agentEnterprise.success_rate ∧ agentEnterprise.success_rate ≤ 1 ∧
    0 ≤ agentEnterprise.avg_latency_ms := by
  have ht : agentTier
      (JsonObj.cons (chars "metadata")
        (Json.obj (JsonObj.cons (chars "tier") (Json.str (chars "enterprise")) JsonObj.nil))
        JsonObj.nil) = some (Json.str (chars "enterprise")) := by
    simp [agentTier, cardMetadata, jsonLookup]
  refine ⟨?_, ?_, ?_, ?_, ?_⟩
  · norm_num [RevenueRanking_score, ht, agentEnterprise, tierScore]
  · norm_num
  · norm_num [agentEnterprise]
  · norm_num [agentEnterprise]
  · norm_num [agentEnterprise]

/-- C4 (amended): for every agent with success rate in `[0,1]` and
nonnegative latency, every query and optional tag list, the performance,
semantic (keyword path), and skill-match scores lie in `[0, 100]` and the
freshness component is the constant 50; whenever the revenue tier lookup
does not raise (metadata absent or a dict, tier hashable — on a card whose
stored metadata is, say, null, `RevenueRanking.score` and
`HybridRanking.score` raise `AttributeError` instead of returning a value),
the revenue score lies in `[0, 110]` (the enterprise tier bonus of 100 plus
`success_rate*10` exceeds 100) and the hybrid weighted sum still lies in
`[0, 100]`. -/
theorem ranking_score_bounds (log10 : ℚ → ℚ)
    (hlog : ∀ x : ℚ, 1 ≤ x → 0 ≤ log10 x)
    (agent : RegisteredAgent) (query : List Char)
    (skill_tags : Option (List (List Char)))
    (hsr0 : 0 ≤ agent.success_rate) (hsr1 : agent.success_rate ≤ 1)
    (hlat : 0 ≤ agent.avg_latency_ms) :
    (0 ≤ PerformanceRanking_score log10 agent query skill_tags ∧
      PerformanceRanking_score log10 agent query skill_tags ≤ 100) ∧
    (0 ≤ SemanticRanking_score agent query ∧
      SemanticRanking_score agent query ≤ 100) ∧
    (0 ≤ HybridRanking_skill_match agent skill_tags ∧
      HybridRanking_skill_match agent skill_tags ≤ 100) ∧
    HybridRanking_freshness agent = 50 ∧
    (∀ r, RevenueRanking_score agent query skill_tags = some r →
      0 ≤ r ∧ r ≤ 110) ∧
    (∀ h, HybridRanking_score log10 agent query skill_tags = some h →
      0 ≤ h ∧ h ≤ 100) := by
  have hp := performance_score_bounds log10 hlog agent query skill_tags hsr0 hsr1 hlat
  have hs := semantic_score_bounds agent query
  have hk := skill_match_bounds agent skill_tags
  have hr := revenue_score_bounds agent query skill_tags hsr0 hsr1
  refine ⟨hp, hs, hk, rfl, hr, ?_⟩
  intro h hh
  simp only [HybridRanking_score] at hh
  cases hrev : RevenueRanking_score agent query skill_tags with
  | none =>
    rw [hrev] at hh
    simp at hh
  | some r =>
    have hrb := hr r hrev
    rw [hrev] at hh
    simp only [Option.some.injEq] at hh
    subst hh
    have hf : HybridRanking_freshness agent = 50 := rfl
    rw [hf]
    constructor
    · have := hp.1; have := hs.1; have := hk.1; have := hrb.1
      norm_num
      linarith
    · have := hp.2; have := hs.2; have := hk.2; have := hrb.2
      norm_num
      linarith

/-- C4 (witness): the amended bounds evaluated at a concrete agent, query,
and tag list (with `log10` instantiated by the zero function, which
satisfies the nonnegativity hypothesis). -/
theorem ranking_score_bounds_witness :
    (0 ≤ PerformanceRanking_score (fun _ => 0) agentA (chars "weather")
        (some [chars "weather"]) ∧
      PerformanceRanking_score (fun _ => 0) agentA (chars "weather")
        (some [chars "weather"]) ≤ 100) ∧
    (0 ≤ SemanticRanking_score agentA (chars "weather") ∧
      SemanticRanking_score agentA (chars "weather") ≤ 100) ∧
    (0 ≤ HybridRanking_skill_match agentA (some [chars "weather"]) ∧
      HybridRanking_skill_match agentA (some [chars "weather"]) ≤ 100) ∧
    HybridRanking_freshness agentA = 50 ∧
    (∀ r, RevenueRanking_score agentA (chars "weather") (some [chars "weather"])
        = some r → 0 ≤ r ∧ r ≤ 110) ∧
    (∀ h, HybridRanking_score (fun _ => 0) agentA (chars "weather")
        (some [chars "weather"]) = some h → 0 ≤ h ∧ h ≤ 100) :=
  ranking_score_bounds (fun _ => 0) (fun _ _ => le_refl 0) agentA
    (chars "weather") (some [chars "weather"]) (by norm_num [agentA])
    (by norm_num [agentA]) (by norm_num [agentA])

/-- Performance formula as claim C5 words it: `successRate*60 +
latencyScore + popularityScore` with an unconditional latency term
`max(0, 30 - (avgLatencyMs/5000)*30)` (30 points at 0 ms) and
`popularityScore = min(10, log10(totalCalls+1)*2)`.  Stated from the claim,
for comparison with `PerformanceRanking_score`. -/
def performanceScoreClaimed (log10 : ℚ → ℚ) (agent : RegisteredAgent) : ℚ :=
  agent.success_rate * 60 + max 0 (30 - agent.avg_latency_ms / 5000 * 30) +
    min 10 (log10 ((agent.total_calls : ℚ) + 1) * 2)

/-- C5 (counterexample): at `avg_latency_ms = 0` the code's guard
`if agent.avg_latency_ms > 0` skips the latency term entirely, so a
never-called agent scores 0 where the claim's formula gives 30 (the
`log10` argument is instantiated by the zero function, which agrees with
the real `log10` at the only evaluated point, `log10(0+1) = 0`). -/
theorem performance_zero_latency_counterexample :
    PerformanceRanking_score (fun _ => 0) agentIdle (chars "") none = 0 ∧
    performanceScoreClaimed (fun _ => 0) agentIdle = 30 := by
  constructor
  · norm_num [PerformanceRanking_score, agentIdle]
  · norm_num [performanceScoreClaimed, agentIdle]

/-- C5 (amended): for every agent and any `log10` with `log10 1 = 0`, the
performance score equals `successRate*60 + latencyScore +
popularityScore`, where the latency term `max(0, 30 - (avgLatencyMs/5000)*30)`
is applied only when `avg_latency_ms > 0` (an agent with zero recorded
latency gets 0 latency points, not 30) and
`popularityScore = min(10, log10(totalCalls+1)*2)`; at 5000 ms or more the
latency term is 0. -/
theorem performance_score_formula (log10 : ℚ → ℚ) (agent : RegisteredAgent)
    (q : List Char) (t : Option (List (List Char)))
    (hlog1 : log10 1 = 0) :
    PerformanceRanking_score log10 agent q t =
      agent.success_rate * 60 +
        (if 0 < agent.avg_latency_ms then
          max 0 (30 - agent.avg_latency_ms / 5000 * 30) else 0) +
        min 10 (log10 ((agent.total_calls : ℚ) + 1) * 2) ∧
    (5000 ≤ agent.avg_latency_ms →
      max 0 (30 - agent.avg_latency_ms / 5000 * 30) = 0) := by
  constructor
  · unfold PerformanceRanking_score
    by_cases hc : 0 < agent.total_calls
    · simp only [if_pos hc]
      split_ifs <;> ring
    · have hc0 : agent.total_calls = 0 := by omega
      simp only [if_neg hc, hc0]
      norm_num [hlog1]
      split_ifs <;> ring
  · intro h5
    have hone : (1 : ℚ) ≤ agent.avg_latency_ms / 5000 := by
      rw [le_div_iff₀ (by norm_num)]
      linarith
    have : 30 - agent.avg_latency_ms / 5000 * 30 ≤ 0 := by nlinarith
    exact max_eq_left this

/-- C5 (witness): the amended formula evaluated at a concrete agent with
positive latency (4000 ms) and at one with latency at the 5000 ms cap. -/
theorem performance_score_formula_witness :
    PerformanceRanking_score (fun _ => 0) agentB (chars "") none =
      agentB.success_rate * 60 +
        (if 0 < agentB.avg_latency_ms then
          max 0 (30 - agentB.avg_latency_ms / 5000 * 30) else 0) +
        min 10 ((0 : ℚ) * 2) :=
  (performance_score_formula (fun _ => 0) agentB (chars "") none rfl).1

/-- Helper: decoding a standard-alphabet digit back through `stdVal`. -/
theorem stdVal_b64char (v : Nat) (hv : v < 64) :
    stdVal (b64char '+' '/' v) = some v := by
  have h := (by decide : ∀ w : Fin 64, stdVal (b64char '+' '/' (w : Nat)) = some (w : Nat))
  exact h ⟨v, hv⟩

/-- Helper: decoding a URL-safe digit back through `urlVal`. -/
theorem urlVal_b64char (v : Nat) (hv : v < 64) :
    urlVal (b64char '-' '_' v) = some v := by
  have h := (by decide : ∀ w : Fin 64, urlVal (b64char '-' '_' (w : Nat)) = some (w : Nat))
  exact h ⟨v, hv⟩

/-- Helper: no standard-alphabet digit is the padding character. -/
theorem b64char_std_ne_pad (v : Nat) (hv : v < 64) : b64char '+' '/' v ≠ '=' := by
  have h := (by decide : ∀ w : Fin 64, b64char '+' '/' (w : Nat) ≠ '=')
  exact h ⟨v, hv⟩

/-- Helper: no URL-safe digit is the padding character. -/
theorem b64char_url_ne_pad (v : Nat) (hv : v < 64) : b64char '-' '_' v ≠ '=' := by
  have h := (by decide : ∀ w : Fin 64, b64char '-' '_' (w : Nat) ≠ '=')
  exact h ⟨v, hv⟩

/-- Helper: no URL-safe digit is a colon (so a DID's key segment contains
no `:` and `split(":")[-1]` recovers it whole). -/
theorem b64char_url_ne_colon (v : Nat) (hv : v < 64) : b64char '-' '_' v ≠ ':' := by
  have h := (by decide : ∀ w : Fin 64, b64char '-' '_' (w : Nat) ≠ ':')
  exact h ⟨v, hv⟩

/-- Helper: base64 decoding inverts base64 encoding on byte strings, for
any alphabet whose digits decode correctly and avoid `=`. -/
theorem b64decode_b64encode (c62 c63 : Char) (val : Char → Option Nat)
    (hval : ∀ v, v < 64 → val (b64char c62 c63 v) = some v)
    (hne : ∀ v, v < 64 → b64char c62 c63 v ≠ '=') :
    ∀ bs : List Nat, (∀ b ∈ bs, b < 256) →
      b64decode val (b64encode c62 c63 bs) = some bs
  | [], _ => rfl
  | [b1], h => by
    have hb1 : b1 < 256 := h b1 (by simp)
    have e1 := hval (b1 / 4) (by omega)
    have e2 := hval (b1 % 4 * 16) (by omega)
    simp [b64encode, b64decode, e1, e2]
    omega
  | [b1, b2], h => by
    have hb1 : b1 < 256 := h b1 (by simp)
    have hb2 : b2 < 256 := h b2 (by simp)
    have e1 := hval (b1 / 4) (by omega)
    have e2 := hval (b1 % 4 * 16 + b2 / 16) (by omega)
    have e3 := hval (b2 % 16 * 4) (by omega)
    have n3 := hne (b2 % 16 * 4) (by omega)
    simp [b64encode, b64decode, e1, e2, e3, n3]
    omega
  | b1 :: b2 :: b3 :: rest, h => by
    have hb1 : b1 < 256 := h b1 (by simp)
    have hb2 : b2 < 256 := h b2 (by simp)
    have hb3 : b3 < 256 := h b3 (by simp)
    have ih := b64decode_b64encode c62 c63 val hval hne rest
      (fun b hb => h b (by simp [hb]))
    have e1 := hval (b1 / 4) (by omega)
    have e2 := hval (b1 % 4 * 16 + b2 / 16) (by omega)
    have e3 := hval (b2 % 16 * 4 + b3 / 64) (by omega)
    have e4 := hval (b3 % 64) (by omega)
    have n3 := hne (b2 % 16 * 4 + b3 / 64) (by omega)
    have n4 := hne (b3 % 64) (by omega)
    simp [b64encode, b64decode, e1, e2, e3, e4, n3, n4, ih]
    omega

/-- Helper: `rstrip('=')` of a concatenation skips a left part that
contains no `=`. -/
theorem stripEq_append_no_pad (l m : List Char) (hl : ∀ c ∈ l, c ≠ '=') :
    stripEq (l ++ m) = l ++ stripEq m := by
  unfold stripEq
  rw [List.reverse_append, List.dropWhile_append]
  have hself : l.reverse.dropWhile (fun c => c == '=') = l.reverse := by
    cases hrev : l.reverse with
    | nil => simp
    | cons x xs =>
      have hx : x ∈ l := by
        rw [← List.mem_reverse, hrev]; simp
      have hxe : (x == '=') = false := by
        simpa using hl x hx
      simp [List.dropWhile_cons, hxe]
  by_cases hemp : (m.reverse.dropWhile (fun c => c == '=')).isEmpty = true
  · rw [if_pos hemp, hself]
    rw [List.isEmpty_iff] at hemp
    rw [hemp]
    simp
  · rw [if_neg hemp, List.reverse_append, List.reverse_reverse]

/-- Helper: re-padding a concatenation whose left part is four-aligned pads
only the right part. -/
theorem padB64_append_aligned (l s : List Char) (hl : l.length % 4 = 0) :
    padB64 (l ++ s) = l ++ padB64 s := by
  simp only [padB64, List.length_append]
  have hmod : (l.length + s.length) % 4 = s.length % 4 := by omega
  rw [hmod]
  by_cases hc : 4 - s.length % 4 ≠ 4
  · rw [if_pos hc, if_pos hc, List.append_assoc]
  · rw [if_neg hc, if_neg hc]

/-- Helper: re-padding restores exactly the padding that `rstrip('=')`
removed from a base64 encoding — the round trip inside `verify_agent_card`
for the DID's unpadded key segment. -/
theorem padB64_stripEq_b64encode (c62 c63 : Char)
    (hne : ∀ v, v < 64 → b64char c62 c63 v ≠ '=') :
    ∀ bs : List Nat, (∀ b ∈ bs, b < 256) →
      padB64 (stripEq (b64encode c62 c63 bs)) = b64encode c62 c63 bs
  | [], _ => by simp [b64encode, stripEq, padB64]
  | [b1], h => by
    have hb1 : b1 < 256 := h b1 (by simp)
    have n1 : (b64char c62 c63 (b1 / 4) == '=') = false := by
      simpa using hne (b1 / 4) (by omega)
    have n2 : (b64char c62 c63 (b1 % 4 * 16) == '=') = false := by
      simpa using hne (b1 % 4 * 16) (by omega)
    simp [b64encode, stripEq, padB64, List.dropWhile, n1, n2, List.replicate]
  | [b1, b2], h => by
    have hb1 : b1 < 256 := h b1 (by simp)
    have hb2 : b2 < 256 := h b2 (by simp)
    have n1 : (b64char c62 c63 (b1 / 4) == '=') = false := by
      simpa using hne (b1 / 4) (by omega)
    have n2 : (b64char c62 c63 (b1 % 4 * 16 + b2 / 16) == '=') = false := by
      simpa using hne (b1 % 4 * 16 + b2 / 16) (by omega)
    have n3 : (b64char c62 c63 (b2 % 16 * 4) == '=') = false := by
      simpa using hne (b2 % 16 * 4) (by omega)
    simp [b64encode, stripEq, padB64, List.dropWhile, n1, n2, n3, List.replicate]
  | b1 :: b2 :: b3 :: rest, h => by
    have hb1 : b1 < 256 := h b1 (by simp)
    have hb2 : b2 < 256 := h b2 (by simp)
    have hb3 : b3 < 256 := h b3 (by simp)
    have ih := padB64_stripEq_b64encode c62 c63 hne rest
      (fun b hb => h b (by simp [hb]))
    have hchunk : ∀ c ∈ [b64char c62 c63 (b1 / 4),
        b64char c62 c63 (b1 % 4 * 16 + b2 / 16),
        b64char c62 c63 (b2 % 16 * 4 + b3 / 64),
        b64char c62 c63 (b3 % 64)], c ≠ '=' := by
      intro c hc
      simp only [List.mem_cons, List.not_mem_nil, or_false] at hc
      rcases hc with rfl | rfl | rfl | rfl
      · exact hne _ (by omega)
      · exact hne _ (by omega)
      · exact hne _ (by omega)
      · exact hne _ (by omega)
    have henc : b64encode c62 c63 (b1 :: b2 :: b3 :: rest) =
        [b64char c62 c63 (b1 / 4),
          b64char c62 c63 (b1 % 4 * 16 + b2 / 16),
          b64char c62 c63 (b2 % 16 * 4 + b3 / 64),
          b64char c62 c63 (b3 % 64)] ++ b64encode c62 c63 rest := rfl
    rw [henc, stripEq_append_no_pad _ _ hchunk,
      padB64_append_aligned _ _ (by simp), ih]

/-- Helper: every character of `rstrip('=')` of a string occurs in it. -/
theorem stripEq_subset (s : List Char) : ∀ c ∈ stripEq s, c ∈ s := by
  intro c hc
  unfold stripEq at hc
  rw [List.mem_reverse] at hc
  have h2 : c ∈ s.reverse := (List.dropWhile_sublist _).subset hc
  rwa [List.mem_reverse] at h2

/-- Helper: every character of a base64 encoding of bytes is a digit or
`=`. -/
theorem mem_b64encode_cases (c62 c63 : Char) :
    ∀ bs : List Nat, (∀ b ∈ bs, b < 256) → ∀ c ∈ b64encode c62 c63 bs,
      c = '=' ∨ ∃ v, v < 64 ∧ c = b64char c62 c63 v
  | [], _, c, hc => by simp [b64encode] at hc
  | [b1], h, c, hc => by
    have hb1 : b1 < 256 := h b1 (by simp)
    simp only [b64encode, List.mem_cons, List.not_mem_nil, or_false] at hc
    rcases hc with rfl | rfl | rfl | rfl
    · exact Or.inr ⟨_, by omega, rfl⟩
    · exact Or.inr ⟨_, by omega, rfl⟩
    · exact Or.inl rfl
    · exact Or.inl rfl
  | [b1, b2], h, c, hc => by
    have hb1 : b1 < 256 := h b1 (by simp)
    have hb2 : b2 < 256 := h b2 (by simp)
    simp only [b64encode, List.mem_cons, List.not_mem_nil, or_false] at hc
    rcases hc with rfl | rfl | rfl | rfl
    · exact Or.inr ⟨_, by omega, rfl⟩
    · exact Or.inr ⟨_, by omega, rfl⟩
    · exact Or.inr ⟨_, by omega, rfl⟩
    · exact Or.inl rfl
  | b1 :: b2 :: b3 :: rest, h, c, hc => by
    have hb1 : b1 < 256 := h b1 (by simp)
    have hb2 : b2 < 256 := h b2 (by simp)
    have hb3 : b3 < 256 := h b3 (by simp)
    simp only [b64encode, List.mem_cons] at hc
    rcases hc with rfl | rfl | rfl | rfl | hc
    · exact Or.inr ⟨_, by omega, rfl⟩
    · exact Or.inr ⟨_, by omega, rfl⟩
    · exact Or.inr ⟨_, by omega, rfl⟩
    · exact Or.inr ⟨_, by omega, rfl⟩
    · exact mem_b64encode_cases c62 c63 rest (fun b hb => h b (by simp [hb])) c hc

/-- Helper: the unpadded URL-safe key segment of a DID contains no colon. -/
theorem b64url_seg_no_colon (bs : List Nat) (h : ∀ b ∈ bs, b < 256) :
    ∀ c ∈ stripEq (b64encode '-' '_' bs), c ≠ ':' := by
  intro c hc
  have hc' : c ∈ b64encode '-' '_' bs := stripEq_subset _ c hc
  rcases mem_b64encode_cases '-' '_' bs h c hc' with rfl | ⟨v, hv, rfl⟩
  · decide
  · exact b64char_url_ne_colon v hv

/-- Helper: `split(sep)` of a separator-free string is that string alone. -/
theorem pySplit_no_sep (sep : Char) : ∀ s : List Char, (∀ c ∈ s, c ≠ sep) →
    pySplit sep s = [s]
  | [], _ => rfl
  | c :: rest, h => by
    have ih := pySplit_no_sep sep rest (fun x hx => h x (by simp [hx]))
    have hc : ¬(c = sep) := h c (by simp)
    unfold pySplit at ih ⊢
    rw [List.foldr_cons, ih]
    simp [hc]

/-- Helper: splitting a DID built from the fixed prefix and a colon-free
segment yields exactly the four expected groups. -/
theorem pySplit_prefix_did (seg : List Char) (hseg : ∀ c ∈ seg, c ≠ ':') :
    pySplit ':' (chars "did:poros:ed25519:" ++ seg) =
      [chars "did", chars "poros", chars "ed25519", seg] := by
  have h := pySplit_no_sep ':' seg hseg
  unfold pySplit at h ⊢
  rw [List.foldr_append, h]
  rfl

/-- Helper: a string starts with itself followed by anything. -/
theorem strStarts_append (p s : List Char) : strStarts p (p ++ s) = true := by
  induction p with
  | nil => rfl
  | cons c cs ih => simp [strStarts, ih]

/-- C2: round-trip — for every Ed25519 scheme (32-byte public keys,
byte-valued signatures, and verification accepting the scheme's own
signatures, the documented contract of the `cryptography` primitives that
identity.py calls), every key, and every JSON record,
`verify_agent_card(record, sign_agent_card(record, key), did)` with the DID
produced by `generate_keypair` returns `True`: the verifier re-pads the
unpadded base64url key segment of the DID and canonicalises the record
exactly as the signer did. -/
theorem verify_sign_roundtrip (S : Ed25519Scheme) (k : S.Key)
    (hLen : (S.pubBytes k).length = 32)
    (hPub : ∀ b ∈ S.pubBytes k, b < 256)
    (hSig : ∀ m : List Char, ∀ b ∈ S.sign k m, b < 256)
    (hOk : ∀ m : List Char, S.verify (S.pubBytes k) (S.sign k m) m = true)
    (record : Json) :
    verify_agent_card S.verify record (sign_agent_card (S.sign k) record)
      (didFrom (S.pubBytes k)) = true := by
  have hseg : ∀ c ∈ stripEq (b64encode '-' '_' (S.pubBytes k)), c ≠ ':' :=
    b64url_seg_no_colon _ hPub
  have hsplit : (pySplit ':' (didFrom (S.pubBytes k))).getLastD [] =
      stripEq (b64encode '-' '_' (S.pubBytes k)) := by
    unfold didFrom
    rw [pySplit_prefix_did _ hseg]
    rfl
  have hpad : padB64 (stripEq (b64encode '-' '_' (S.pubBytes k))) =
      b64encode '-' '_' (S.pubBytes k) :=
    padB64_stripEq_b64encode '-' '_' b64char_url_ne_pad _ hPub
  have hdec : b64decode urlVal (b64encode '-' '_' (S.pubBytes k)) =
      some (S.pubBytes k) :=
    b64decode_b64encode '-' '_' urlVal urlVal_b64char b64char_url_ne_pad _ hPub
  have hsigdec : b64decode stdVal
      (b64encode '+' '/' (S.sign k (canonicalJson record))) =
      some (S.sign k (canonicalJson record)) :=
    b64decode_b64encode '+' '/' stdVal stdVal_b64char b64char_std_ne_pad _ (hSig _)
  have hpre : strStarts (chars "did:poros:ed25519:") (didFrom (S.pubBytes k)) = true := by
    unfold didFrom
    exact strStarts_append _ _
  simp only [List.getLastD_eq_getLast?] at hsplit
  simp only [verify_agent_card, sign_agent_card, hpre, Bool.true_eq_false,
    if_false, List.getLastD_eq_getLast?, hsplit, hpad, hdec, hLen, hsigdec]
  simp [hOk]

/-- A concrete scheme satisfying the Ed25519 contract, used to instantiate
the round-trip theorem: the "signature" is the byte-reduced message and
verification checks it against the fixed public key. -/
def toyScheme : Ed25519Scheme where
  Key := Unit
  pubBytes := fun _ => List.replicate 32 0
  sign := fun _ m => m.map (fun c => c.toNat % 256)
  verify := fun pub sg msg =>
    pub == List.replicate 32 0 && sg == msg.map (fun c => c.toNat % 256)

/-- C2 (witness): the round trip evaluated for a concrete scheme, key, and
record. -/
theorem verify_sign_roundtrip_witness :
    verify_agent_card toyScheme.verify
      (Json.obj (JsonObj.cons (chars "name") (Json.str (chars "Alpha")) JsonObj.nil))
      (sign_agent_card (toyScheme.sign ())
        (Json.obj (JsonObj.cons (chars "name") (Json.str (chars "Alpha")) JsonObj.nil)))
      (didFrom (toyScheme.pubBytes ())) = true :=
  verify_sign_roundtrip toyScheme ()
    (by decide)
    (by
      intro b hb
      simp [toyScheme] at hb
      omega)
    (by
      intro m b hb
      simp [toyScheme] at hb
      obtain ⟨c, _, rfl⟩ := hb
      omega)
    (by
      intro m
      simp [toyScheme])
    (Json.obj (JsonObj.cons (chars "name") (Json.str (chars "Alpha")) JsonObj.nil))

/-- Helper: filtering a concatenation of an all-`p` block and an all-not-`p`
block recovers the blocks. -/
theorem filter_partition_eq {α : Type} (p : α → Bool) (l1 l2 : List α)
    (h1 : ∀ a ∈ l1, p a = true) (h2 : ∀ a ∈ l2, p a = false) :
    (l1 ++ l2).filter p = l1 ∧ (l1 ++ l2).filter (fun a => !(p a)) = l2 := by
  constructor
  · rw [List.filter_append, List.filter_eq_self.mpr h1,
      List.filter_eq_nil_iff.mpr (by intro a ha; simp [h2 a ha]), List.append_nil]
  · rw [List.filter_append,
      List.filter_eq_nil_iff.mpr (by intro a ha; simp [h1 a ha]),
      List.filter_eq_self.mpr (by intro a ha; simp [h2 a ha]), List.nil_append]

/-- Helper: properties of `(l1 ++ l2).take n` when `l1` holds the
`p`-elements and `l2` the rest — the combinatorial core of the
orchestrator's preferred-first selection. -/
theorem take_partition_spec {α : Type} (p : α → Bool) (l1 l2 : List α) (n : Nat)
    (h1 : ∀ a ∈ l1, p a = true) (h2 : ∀ a ∈ l2, p a = false)
    (hn1 : l1.Nodup) (hn2 : l2.Nodup) (hdisj : ∀ a ∈ l1, a ∉ l2) :
    ((l1 ++ l2).take n).length ≤ n ∧
    ((l1 ++ l2).take n).Nodup ∧
    (l1 ++ l2).take n = ((l1 ++ l2).take n).filter p ++
      ((l1 ++ l2).take n).filter (fun a => !(p a)) ∧
    (l1.length ≤ n → ∀ a ∈ l1, a ∈ (l1 ++ l2).take n) ∧
    (1 ≤ n → ∀ x xs, l1 = x :: xs → ((l1 ++ l2).take n).head? = some x) := by
  have hdecomp : (l1 ++ l2).take n = l1.take n ++ l2.take (n - l1.length) :=
    List.take_append_eq_append_take
  have h1' : ∀ a ∈ l1.take n, p a = true :=
    fun a ha => h1 a (List.mem_of_mem_take ha)
  have h2' : ∀ a ∈ l2.take (n - l1.length), p a = false :=
    fun a ha => h2 a (List.mem_of_mem_take ha)
  refine ⟨?_, ?_, ?_, ?_, ?_⟩
  · rw [List.length_take]
    exact min_le_left _ _
  · rw [hdecomp]
    refine List.Nodup.append ((List.take_sublist _ _).nodup hn1)
      ((List.take_sublist _ _).nodup hn2) ?_
    intro a ha1 ha2
    exact hdisj a (List.mem_of_mem_take ha1) (List.mem_of_mem_take ha2)
  · have hparts := filter_partition_eq p (l1.take n) (l2.take (n - l1.length)) h1' h2'
    rw [hdecomp, hparts.1, hparts.2]
  · intro hlen a ha
    rw [hdecomp, List.take_of_length_le hlen]
    exact List.mem_append_left _ ha
  · intro hn x xs hl1
    subst hl1
    rw [hdecomp]
    obtain ⟨m, rfl⟩ : ∃ m, n = m + 1 := ⟨n - 1, by omega⟩
    simp [List.take_succ_cons]

/-- Helper: with pairwise-distinct agent ids, filtering a candidate list by
membership in the singleton id list `[x.agent_id]` yields exactly `[x]`. -/
theorem filter_id_singleton (l : List RegisteredAgent) (x : RegisteredAgent)
    (hx : x ∈ l) (hn : (l.map (fun a => a.agent_id)).Nodup) :
    l.filter (fun a => decide (a.agent_id ∈ [x.agent_id])) = [x] := by
  induction l with
  | nil => cases hx
  | cons y ys ih =>
    simp only [List.map_cons, List.nodup_cons] at hn
    rcases List.mem_cons.mp hx with rfl | hxys
    · have hmem : ∀ a ∈ ys, ¬a.agent_id = x.agent_id := by
        intro a ha heq
        exact hn.1 (heq ▸ List.mem_map_of_mem (fun a => a.agent_id) ha)
      have hys : ys.filter (fun a => decide (a.agent_id ∈ [x.agent_id])) = [] := by
        rw [List.filter_eq_nil_iff]
        intro a ha
        simp only [List.mem_singleton, decide_eq_true_eq]
        exact hmem a ha
      rw [List.filter_cons, if_pos (by simp), hys]
    · have hy : ¬(y.agent_id ∈ [x.agent_id]) := by
        simp only [List.mem_singleton]
        intro heq
        exact hn.1 (heq ▸ List.mem_map_of_mem (fun a => a.agent_id) hxys)
      simp only [List.filter_cons, decide_eq_true_eq, hy, if_neg hy]
      exact ih hxys hn.2

/-- An agent with integer-valued metrics, for selection examples. -/
def agentP : RegisteredAgent :=
  ⟨chars "agent-p", chars "P", chars "", chars "http://p", [], JsonObj.nil, 0, 1, 0⟩

/-- A second such agent with a distinct id. -/
def agentQ : RegisteredAgent :=
  ⟨chars "agent-q", chars "Q", chars "", chars "http://q", [], JsonObj.nil, 0, 1, 0⟩

/-- C7 (counterexample): with `prefer_agent_ids = [p, q]`, both present in
the filtered candidate set, and `max_agents = 1`, the combined list is
truncated back to one element, so the preferred candidate `q` does not
appear in the selection at all — the claim's "every preferred agent present
in the filtered candidate set appears in the selection" fails. -/
theorem selectAgents_preferred_truncated_counterexample :
    agentQ.agent_id ∈ [chars "agent-p", chars "agent-q"] ∧
    agentQ ∈ [agentP, agentQ] ∧
    agentQ ∉ selectAgents [agentP, agentQ] [agentP, agentQ]
      (some [chars "agent-p", chars "agent-q"]) 1 := by
  refine ⟨by decide, by decide, by decide⟩

/-- C7 (amended): for every request with a non-empty preferred id list and
`max_agents ≥ 1`, over a ranked list drawn (without duplicates) from the
filtered candidates whose agent ids are pairwise distinct, the selection
(1) has length at most `max_agents`, (2) has no duplicate agents, (3) lists
every selected preferred agent ahead of every selected non-preferred agent,
(4) contains every preferred candidate whenever the preferred candidates
number at most `max_agents` (beyond that they are truncated), and (5) with
a singleton preferred id naming a candidate `x`, the selection starts with
`x` regardless of its rank score. -/
theorem selectAgents_spec (ranked matching : List RegisteredAgent)
    (ids : List (List Char)) (max_agents : Nat)
    (hids : ids ≠ [])
    (hmax : 1 ≤ max_agents)
    (hsub : ∀ a ∈ ranked, a ∈ matching)
    (hnr : ranked.Nodup)
    (hnm : (matching.map (fun a => a.agent_id)).Nodup) :
    (selectAgents ranked matching (some ids) max_agents).length ≤ max_agents ∧
    (selectAgents ranked matching (some ids) max_agents).Nodup ∧
    selectAgents ranked matching (some ids) max_agents =
      (selectAgents ranked matching (some ids) max_agents).filter
          (fun a => decide (a.agent_id ∈ ids)) ++
        (selectAgents ranked matching (some ids) max_agents).filter
          (fun a => !(decide (a.agent_id ∈ ids))) ∧
    ((matching.filter (fun a => decide (a.agent_id ∈ ids))).length ≤ max_agents →
      ∀ a ∈ matching, a.agent_id ∈ ids →
        a ∈ selectAgents ranked matching (some ids) max_agents) ∧
    (∀ x : RegisteredAgent, ids = [x.agent_id] → x ∈ matching →
      (selectAgents ranked matching (some ids) max_agents).head? = some x) := by
  have hmn : matching.Nodup := List.Nodup.of_map _ hnm
  have hsel : selectAgents ranked matching (some ids) max_agents =
      (matching.filter (fun a => decide (a.agent_id ∈ ids)) ++
        (ranked.take max_agents).filter
          (fun a => decide (a ∉ matching.filter
            (fun a => decide (a.agent_id ∈ ids))))).take max_agents := by
    simp only [selectAgents]
    rw [if_neg hids]
  have h2 : ∀ a ∈ (ranked.take max_agents).filter
      (fun a => decide (a ∉ matching.filter
        (fun a => decide (a.agent_id ∈ ids)))),
      (fun a => decide (a.agent_id ∈ ids)) a = false := by
    intro a ha
    have hmem := List.mem_filter.mp ha
    have hnotp : a ∉ matching.filter (fun a => decide (a.agent_id ∈ ids)) :=
      of_decide_eq_true hmem.2
    by_contra hP
    rw [Bool.not_eq_false, decide_eq_true_eq] at hP
    exact hnotp (List.mem_filter.mpr
      ⟨hsub a (List.mem_of_mem_take hmem.1), by simpa using hP⟩)
  have key := take_partition_spec (fun a => decide (a.agent_id ∈ ids))
    (matching.filter (fun a => decide (a.agent_id ∈ ids)))
    ((ranked.take max_agents).filter
      (fun a => decide (a ∉ matching.filter
        (fun a => decide (a.agent_id ∈ ids)))))
    max_agents
    (fun a ha => (List.mem_filter.mp ha).2)
    h2
    (hmn.filter _)
    (((List.take_sublist _ _).nodup hnr).filter _)
    (by
      intro a ha1 ha2
      have h := (List.mem_filter.mp ha2).2
      simp only [decide_eq_true_eq] at h
      exact h ha1)
  refine ⟨?_, ?_, ?_, ?_, ?_⟩
  · rw [hsel]
    exact key.1
  · rw [hsel]
    exact key.2.1
  · rw [hsel]
    exact key.2.2.1
  · intro hlen a ham haid
    rw [hsel]
    exact key.2.2.2.1 hlen a (List.mem_filter.mpr ⟨ham, by simpa using haid⟩)
  · intro x hxids hxm
    subst hxids
    have hl1 : matching.filter (fun a => decide (a.agent_id ∈ [x.agent_id])) = [x] :=
      filter_id_singleton matching x hxm hnm
    rw [hsel, hl1]
    obtain ⟨m, rfl⟩ : ∃ m, max_agents = m + 1 := ⟨max_agents - 1, by omega⟩
    simp [List.take_succ_cons]

/-- C7 (witness): the amended selection properties evaluated at two
concrete candidates with one preferred id. -/
theorem selectAgents_spec_witness :
    (selectAgents [agentQ, agentP] [agentP, agentQ] (some [chars "agent-p"]) 2).length ≤ 2 ∧
    (selectAgents [agentQ, agentP] [agentP, agentQ] (some [chars "agent-p"]) 2).Nodup ∧
    selectAgents [agentQ, agentP] [agentP, agentQ] (some [chars "agent-p"]) 2 =
      (selectAgents [agentQ, agentP] [agentP, agentQ] (some [chars "agent-p"]) 2).filter
          (fun a => decide (a.agent_id ∈ [chars "agent-p"])) ++
        (selectAgents [agentQ, agentP] [agentP, agentQ] (some [chars "agent-p"]) 2).filter
          (fun a => !(decide (a.agent_id ∈ [chars "agent-p"]))) ∧
    (([agentP, agentQ].filter
        (fun a => decide (a.agent_id ∈ [chars "agent-p"]))).length ≤ 2 →
      ∀ a ∈ [agentP, agentQ], a.agent_id ∈ [chars "agent-p"] →
        a ∈ selectAgents [agentQ, agentP] [agentP, agentQ] (some [chars "agent-p"]) 2) ∧
    (∀ x : RegisteredAgent, [chars "agent-p"] = [x.agent_id] → x ∈ [agentP, agentQ] →
      (selectAgents [agentQ, agentP] [agentP, agentQ]
        (some [chars "agent-p"]) 2).head? = some x) :=
  selectAgents_spec [agentQ, agentP] [agentP, agentQ] [chars "agent-p"] 2
    (by decide) (by norm_num) (by decide) (by decide) (by decide)

/-- A third agent with integer-valued metrics. -/
def agentR : RegisteredAgent :=
  ⟨chars "agent-r", chars "R", chars "", chars "http://r", [], JsonObj.nil, 0, 1, 0⟩

/-- C8: partial failure isolation — when one of the N dispatched agents
fails (its HTTP call raises or returns non-2xx) and the others succeed, the
orchestrator still produces exactly N per-agent results in task order: the
failing agent's result is the normalized error dict carrying its message
(with `latency_ms` 0), every other agent's result is exactly the normalized
result of its own outcome, and exactly one result is marked
`status: "error"`. -/
theorem dispatch_partial_failure_isolated
    (a1 a2 : List RegisteredAgent) (af : RegisteredAgent)
    (o1 o2 : List HttpOutcome) (e : List Char)
    (h1 : o1.length = a1.length) (h2 : o2.length = a2.length)
    (hok1 : ∀ o ∈ o1, ∃ l d, o = HttpOutcome.ok l d)
    (hok2 : ∀ o ∈ o2, ∃ l d, o = HttpOutcome.ok l d) :
    (dispatchAgents (a1 ++ af :: a2) (o1 ++ HttpOutcome.fail e :: o2)).length =
      (a1 ++ af :: a2).length ∧
    dispatchAgents (a1 ++ af :: a2) (o1 ++ HttpOutcome.fail e :: o2) =
      dispatchAgents a1 o1 ++
        CallResult.mk af.agent_id af.name (chars "error") 0 none (some e) ::
          dispatchAgents a2 o2 ∧
    (∀ r ∈ dispatchAgents a1 o1, r.status = chars "success") ∧
    (∀ r ∈ dispatchAgents a2 o2, r.status = chars "success") ∧
    ((dispatchAgents (a1 ++ af :: a2) (o1 ++ HttpOutcome.fail e :: o2)).filter
        (fun r => r.status == chars "error")).length = 1 := by
  have hzip : (a1 ++ af :: a2).zip (o1 ++ HttpOutcome.fail e :: o2) =
      a1.zip o1 ++ (af, HttpOutcome.fail e) :: a2.zip o2 := by
    rw [List.zip_append h1.symm]
    rfl
  have hformat : dispatchAgents (a1 ++ af :: a2) (o1 ++ HttpOutcome.fail e :: o2) =
      dispatchAgents a1 o1 ++
        CallResult.mk af.agent_id af.name (chars "error") 0 none (some e) ::
          dispatchAgents a2 o2 := by
    unfold dispatchAgents
    rw [hzip, List.map_append, List.map_cons]
    rfl
  have hsucc1 : ∀ r ∈ dispatchAgents a1 o1, r.status = chars "success" := by
    intro r hr
    simp only [dispatchAgents, List.mem_map] at hr
    obtain ⟨⟨a, o⟩, hmem, rfl⟩ := hr
    obtain ⟨l, d, rfl⟩ := hok1 o (List.of_mem_zip hmem).2
    rfl
  have hsucc2 : ∀ r ∈ dispatchAgents a2 o2, r.status = chars "success" := by
    intro r hr
    simp only [dispatchAgents, List.mem_map] at hr
    obtain ⟨⟨a, o⟩, hmem, rfl⟩ := hr
    obtain ⟨l, d, rfl⟩ := hok2 o (List.of_mem_zip hmem).2
    rfl
  have hlen1 : (dispatchAgents a1 o1).length = a1.length := by
    simp [dispatchAgents, List.length_zip, h1]
  have hlen2 : (dispatchAgents a2 o2).length = a2.length := by
    simp [dispatchAgents, List.length_zip, h2]
  have hnil1 : (dispatchAgents a1 o1).filter (fun r => r.status == chars "error") = [] := by
    rw [List.filter_eq_nil_iff]
    intro r hr
    simp [hsucc1 r hr, chars]
  have hnil2 : (dispatchAgents a2 o2).filter (fun r => r.status == chars "error") = [] := by
    rw [List.filter_eq_nil_iff]
    intro r hr
    simp [hsucc2 r hr, chars]
  refine ⟨?_, hformat, hsucc1, hsucc2, ?_⟩
  · rw [hformat]
    simp [hlen1, hlen2]
  · rw [hformat, List.filter_append, hnil1, List.filter_cons, hnil2]
    simp

/-- C8 (witness): three dispatched agents where the middle call fails with
"timeout" — three results, the middle one the error dict, the others
successes, and exactly one error entry. -/
theorem dispatch_partial_failure_isolated_witness :
    (dispatchAgents [agentP, agentQ, agentR]
        [HttpOutcome.ok 100 Json.null, HttpOutcome.fail (chars "timeout"),
          HttpOutcome.ok 200 Json.null]).length = [agentP, agentQ, agentR].length ∧
    dispatchAgents [agentP, agentQ, agentR]
        [HttpOutcome.ok 100 Json.null, HttpOutcome.fail (chars "timeout"),
          HttpOutcome.ok 200 Json.null] =
      dispatchAgents [agentP] [HttpOutcome.ok 100 Json.null] ++
        CallResult.mk agentQ.agent_id agentQ.name (chars "error") 0 none
            (some (chars "timeout")) ::
          dispatchAgents [agentR] [HttpOutcome.ok 200 Json.null] ∧
    (∀ r ∈ dispatchAgents [agentP] [HttpOutcome.ok 100 Json.null],
      r.status = chars "success") ∧
    (∀ r ∈ dispatchAgents [agentR] [HttpOutcome.ok 200 Json.null],
      r.status = chars "success") ∧
    ((dispatchAgents [agentP, agentQ, agentR]
        [HttpOutcome.ok 100 Json.null, HttpOutcome.fail (chars "timeout"),
          HttpOutcome.ok 200 Json.null]).filter
        (fun r => r.status == chars "error")).length = 1 :=
  dispatch_partial_failure_isolated [agentP] [agentR] agentQ
    [HttpOutcome.ok 100 Json.null] [HttpOutcome.ok 200 Json.null] (chars "timeout")
    rfl rfl
    (by
      intro o ho
      rw [List.mem_singleton] at ho
      exact ⟨100, Json.null, ho⟩)
    (by
      intro o ho
      rw [List.mem_singleton] at ho
      exact ⟨200, Json.null, ho⟩)
